import Mathlib

/-!
Verification of the Markdown-to-HTML conversion core of
`skills/wechat-article/index.py` (class `MarkdownParser`, class
`WeChatArticleFormatter`, function `main`).

Lines are modelled as `List Char`.  Python's `str.rstrip()` / `str.strip()`
(no argument) strip whitespace characters; we model the ASCII whitespace
characters (space, tab, newline, carriage return, vertical tab, form feed),
which covers every input considered here.
-/

namespace MD

/-- The backtick character (split out because of its role as the code-span
delimiter). -/
def btick : Char := Char.ofNat 96

/-- The apostrophe character (one of the five HTML-escaped characters). -/
def squote : Char := Char.ofNat 39

/-- ASCII whitespace, as stripped by Python's argumentless `str.strip`. -/
def pyIsSpace (c : Char) : Bool :=
  c = ' ' || c = '\t' || c = '\n' || c = '\r' || c = '\x0b' || c = '\x0c'

/-- `line.rstrip()` on a list of characters. -/
def rstripL (l : List Char) : List Char :=
  (l.reverse.dropWhile pyIsSpace).reverse

/-- `line.lstrip()` on a list of characters. -/
def lstripL (l : List Char) : List Char :=
  l.dropWhile pyIsSpace

/-- `line.strip()` on a list of characters. -/
def stripL (l : List Char) : List Char :=
  lstripL (rstripL l)

/-- `s.startswith(p)`: `p` begins the list `l`. -/
def startsWithL : List Char → List Char → Bool
  | _, [] => true
  | [], _ :: _ => false
  | c :: cs, p :: ps => c = p && startsWithL cs ps

/-- `content.split('\n')`: split at every newline, keeping empty pieces. -/
def splitLines : List Char → List (List Char)
  | [] => [[]]
  | c :: rest =>
    if c = '\n' then [] :: splitLines rest
    else
      match splitLines rest with
      | [] => [[c]]
      | l :: ls => (c :: l) :: ls

/-- `len(line) - len(line.lstrip('#'))`: the count of leading `#`. -/
def hashCount (l : List Char) : Nat :=
  (l.takeWhile (fun c => c = '#')).length

/-- One character of `MarkdownParser.escape`: the `html_tags` table. -/
def escChar (c : Char) : List Char :=
  if c = '&' then ('&' :: 'a' :: 'm' :: 'p' :: ';' ::[])
  else if c = '<' then ('&' :: 'l' :: 't' :: ';' ::[])
  else if c = '>' then ('&' :: 'g' :: 't' :: ';' ::[])
  else if c = '"' then ('&' :: 'q' :: 'u' :: 'o' :: 't' :: ';' ::[])
  else if c = squote then ('&' :: '#' :: '3' :: '9' :: ';' ::[])
  else [c]

/-- `MarkdownParser.escape`: character-wise HTML entity escaping. -/
def escapeL (l : List Char) : List Char :=
  (l.map escChar).flatten

/-- Join a list of lines with a separator (`sep.join(...)`). -/
def joinSep (sep : List Char) : List (List Char) → List Char
  | [] => []
  | [x] => x
  | x :: y :: xs => x ++ sep ++ joinSep sep (y :: xs)

/-- The block-level output of one `html_lines.append(self._render_X(...))`
call: which renderer was called and with which payload.  `parse` is the
join of the rendered blocks. -/
inductive Block where
  | header (level : Nat) (text : List Char)
  | para (text : List Char)
  | code (linesJ : List (List Char))
  | quote (linesJ : List (List Char))
  | ulist (items : List (List Char))
  | hr
deriving DecidableEq, Repr

/-- The loop-local variables of `MarkdownParser.parse`. -/
structure PState where
  out : List Block
  inCode : Bool
  codeContent : List (List Char)
  inQuote : Bool
  quoteContent : List (List Char)
  inList : Bool
  listItems : List (List Char)
deriving DecidableEq, Repr

/-- The initial values of the loop-local variables of `parse`. -/
def initState : PState :=
  { out := [], inCode := false, codeContent := [],
    inQuote := false, quoteContent := [], inList := false, listItems := [] }

/-- The fence marker, three backticks. -/
def fenceM : List Char := [btick, btick, btick]

/-- One iteration of the `for i, line in enumerate(lines)` loop of
`MarkdownParser.parse`, on the loop-local state. -/
def step (s : PState) (raw : List Char) : PState :=
  let line := rstripL raw
  if startsWithL line fenceM then
    if s.inCode = false then
      { s with inCode := true, codeContent := [] }
    else
      { s with inCode := false, out := s.out ++ [Block.code s.codeContent] }
  else if s.inCode then
    { s with codeContent := s.codeContent ++ [line] }
  else if startsWithL line ['>'] then
    let s1 :=
      if s.inQuote = false then
        let s0 :=
          if s.quoteContent ≠ [] then
            { s with out := s.out ++ [Block.quote s.quoteContent] }
          else s
        { s0 with quoteContent := [], inQuote := true }
      else s
    { s1 with quoteContent := s1.quoteContent ++ [stripL (line.drop 1)] }
  else
    let s2 :=
      if s.inQuote ∧ line ≠ [] then
        { s with out := s.out ++ [Block.quote s.quoteContent],
                 quoteContent := [], inQuote := false }
      else s
    let n := hashCount line
    if startsWithL line ['#'] ∧ 1 ≤ n ∧ n ≤ 6 then
      { s2 with out := s2.out ++ [Block.header n (stripL (line.drop (n + 1)))] }
    else if startsWithL line ['-', '-', '-'] then
      { s2 with out := s2.out ++ [Block.hr] }
    else if startsWithL line ['-', ' '] ∨ startsWithL line ['*', ' '] then
      { s2 with listItems := s2.listItems ++ [stripL (line.drop 2)],
                inList := true }
    else if s2.inList ∧ stripL line = [] then
      { s2 with out := s2.out ++ [Block.ulist s2.listItems],
                listItems := [], inList := false }
    else
      let s3 :=
        if s2.inList ∧ ¬(startsWithL line ['-', ' '] ∨ startsWithL line ['*', ' ']) then
          { s2 with out := s2.out ++ [Block.ulist s2.listItems],
                    listItems := [], inList := false }
        else s2
      if stripL line ≠ [] then
        { s3 with out := s3.out ++ [Block.para line] }
      else s3

/-- The `# 处理残留` residue handling after the loop of `parse`: each
accumulator is flushed only when its flag is set and its buffer non-empty. -/
def finalFlush (s : PState) : List Block :=
  (if s.inCode ∧ s.codeContent ≠ [] then [Block.code s.codeContent] else []) ++
  (if s.inQuote ∧ s.quoteContent ≠ [] then [Block.quote s.quoteContent] else []) ++
  (if s.inList ∧ s.listItems ≠ [] then [Block.ulist s.listItems] else [])

/-- `MarkdownParser.parse` at the block level: the sequence of rendered
blocks appended to `html_lines`, in order. -/
def parseLines (ls : List (List Char)) : List Block :=
  let s := ls.foldl step initState
  s.out ++ finalFlush s

/-! ## The inline formatter `MarkdownParser._format_inline`

Each `re.sub(pattern, repl, text)` call of `_format_inline` is a left-to-right
scan: at each position the pattern is tried; on a match the replacement is
emitted and scanning resumes after the matched text, otherwise the character
is copied and scanning moves one position right.  All six patterns delimit
their groups with character classes excluding the delimiter, so matching at a
position is deterministic (no backtracking), captured by a matcher function
returning the replacement and the remainder after the match.  The scan is
written with a fuel argument (one unit per position, so the input's length is
always enough) to keep the recursion structural. -/

/-- One scanning engine step list: `scanSub m fuel l` replays `re.sub` with
matcher `m` over `l`. -/
def scanSub (m : List Char → Option (List Char × List Char)) :
    Nat → List Char → List Char
  | 0, l => l
  | _ + 1, [] => []
  | f + 1, c :: rest =>
    match m (c :: rest) with
    | some (r, rest2) => r ++ scanSub m f rest2
    | none => c :: scanSub m f rest

/-- Run a substitution pass with enough fuel for the whole input. -/
def runSub (m : List Char → Option (List Char × List Char))
    (l : List Char) : List Char :=
  scanSub m l.length l

/-- Matcher for the code-span pattern (backtick, `[^`+` of non-backticks,
backtick) with its replacement. -/
def codeMatch (l : List Char) : Option (List Char × List Char) :=
  match l with
  | c :: rest =>
    if c = btick then
      let body := rest.takeWhile (fun x => ¬(x = btick))
      match rest.dropWhile (fun x => ¬(x = btick)) with
      | _ :: rest2 =>
        if body.isEmpty then none
        else
          some (("<code style=\"background:#f6f8fa;padding:2px 6px;border-radius:4px;font-family:monospace;font-size:14px\">").data
                ++ body ++ ("</code>").data, rest2)
      | [] => none
    else none
  | [] => none

/-- Matcher for the bold pattern `\*\*([^*]+)\*\*` with its replacement. -/
def boldMatch (l : List Char) : Option (List Char × List Char) :=
  match l with
  | c1 :: c2 :: rest =>
    if c1 = '*' ∧ c2 = '*' then
      let body := rest.takeWhile (fun x => ¬(x = '*'))
      match rest.dropWhile (fun x => ¬(x = '*')) with
      | _ :: c3 :: rest2 =>
        if body.isEmpty ∨ ¬(c3 = '*') then none
        else some (("<strong style=\"font-weight:600\">").data
                   ++ body ++ ("</strong>").data, rest2)
      | _ => none
    else none
  | _ => none

/-- Matcher for the italic pattern `\*([^*]+)\*` with its replacement. -/
def italMatch (l : List Char) : Option (List Char × List Char) :=
  match l with
  | c :: rest =>
    if c = '*' then
      let body := rest.takeWhile (fun x => ¬(x = '*'))
      match rest.dropWhile (fun x => ¬(x = '*')) with
      | _ :: rest2 =>
        if body.isEmpty then none
        else some (("<em style=\"font-style:italic\">").data
                   ++ body ++ ("</em>").data, rest2)
      | [] => none
    else none
  | [] => none

/-- Matcher for the strikethrough pattern `~~([^~]+)~~` with its
replacement. -/
def strikeMatch (l : List Char) : Option (List Char × List Char) :=
  match l with
  | c1 :: c2 :: rest =>
    if c1 = '~' ∧ c2 = '~' then
      let body := rest.takeWhile (fun x => ¬(x = '~'))
      match rest.dropWhile (fun x => ¬(x = '~')) with
      | _ :: c3 :: rest2 =>
        if body.isEmpty ∨ ¬(c3 = '~') then none
        else some (("<del style=\"text-decoration:line-through;color:#999\">").data
                   ++ body ++ ("</del>").data, rest2)
      | _ => none
    else none
  | _ => none

/-- The `<a>` element substituted for a link `[label](url)`. -/
def linkRepl (label url : List Char) : List Char :=
  ("<a href=\"").data ++ url
  ++ ("\" style=\"color:#57606a;text-decoration:none;border-bottom:1px solid #57606a\">").data
  ++ label ++ ("</a>").data

/-- Matcher for the link pattern `\[([^\]]+)\]\(([^)]+)\)`. -/
def linkMatch (l : List Char) : Option (List Char × List Char) :=
  match l with
  | c :: rest =>
    if c = '[' then
      let label := rest.takeWhile (fun x => ¬(x = ']'))
      match rest.dropWhile (fun x => ¬(x = ']')) with
      | _ :: c2 :: rest2 =>
        if ¬(c2 = '(') then none
        else
          let url := rest2.takeWhile (fun x => ¬(x = ')'))
          match rest2.dropWhile (fun x => ¬(x = ')')) with
          | _ :: rest3 =>
            if label.isEmpty ∨ url.isEmpty then none
            else some (linkRepl label url, rest3)
          | [] => none
      | _ => none
    else none
  | [] => none

/-- The `<img>` element substituted for an image `![alt](url)`. -/
def imgRepl (alt url : List Char) : List Char :=
  ("<img src=\"").data ++ url ++ ("\" alt=\"").data ++ alt
  ++ ("\" style=\"max-width:100%;border-radius:8px;margin:16px 0;display:block\"/>").data

/-- Matcher for the image pattern `!\[([^\]]*)\]\(([^)]+)\)` (the alt group
may be empty). -/
def imageMatch (l : List Char) : Option (List Char × List Char) :=
  match l with
  | c1 :: c2 :: rest =>
    if c1 = '!' ∧ c2 = '[' then
      let alt := rest.takeWhile (fun x => ¬(x = ']'))
      match rest.dropWhile (fun x => ¬(x = ']')) with
      | _ :: c3 :: rest2 =>
        if ¬(c3 = '(') then none
        else
          let url := rest2.takeWhile (fun x => ¬(x = ')'))
          match rest2.dropWhile (fun x => ¬(x = ')')) with
          | _ :: rest3 =>
            if url.isEmpty then none
            else some (imgRepl alt url, rest3)
          | [] => none
      | _ => none
    else none
  | _ => none

/-- `MarkdownParser._format_inline`: the six substitution passes in source
order (code span, bold, italic, strikethrough, link, image). -/
def formatInline (l : List Char) : List Char :=
  runSub imageMatch (runSub linkMatch (runSub strikeMatch
    (runSub italMatch (runSub boldMatch (runSub codeMatch l)))))

/-! ## The renderers `MarkdownParser._render_*` -/

/-- The font-size table of `_render_header` (the source's dict is consulted
only for levels 1..6; other levels never reach the renderer). -/
def fontSize : Nat → List Char
  | 1 => ('2' :: '8' :: 'p' :: 'x' ::[])
  | 2 => ('2' :: '4' :: 'p' :: 'x' ::[])
  | 3 => ('2' :: '0' :: 'p' :: 'x' ::[])
  | 4 => ('1' :: '8' :: 'p' :: 'x' ::[])
  | 5 => ('1' :: '6' :: 'p' :: 'x' ::[])
  | 6 => ('1' :: '4' :: 'p' :: 'x' ::[])
  | _ => []

/-- `MarkdownParser._render_header`. -/
def renderHeader (level : Nat) (text : List Char) : List Char :=
  ("<h").data ++ (Nat.repr level).data ++ (" style=\"font-size:").data
  ++ fontSize level
  ++ (";margin:24px 0 16px;font-weight:600;color:#1f2328\">").data
  ++ escapeL text
  ++ ("</h").data ++ (Nat.repr level).data ++ (">").data

/-- `MarkdownParser._render_paragraph`. -/
def renderParagraph (text : List Char) : List Char :=
  ("<p style=\"margin:0 0 16px;line-height:1.8;font-size:16px;color:#333\">").data
  ++ formatInline text ++ ("</p>").data

/-- `MarkdownParser._render_code_block` applied to `'\n'.join(code_content)`. -/
def renderCodeBlock (linesJ : List (List Char)) : List Char :=
  ("<pre style=\"background:#f6f8fa;padding:16px;border-radius:8px;overflow-x:auto;margin:16px 0\"><code style=\"font-family:monospace;font-size:14px;line-height:1.6;color:#24292e\">").data
  ++ escapeL (joinSep ['\n'] linesJ) ++ ("</code></pre>").data

/-- `MarkdownParser._render_list`. -/
def renderList (items : List (List Char)) : List Char :=
  ("<ul style=\"padding-left:24px;margin:16px 0\">").data
  ++ joinSep ['\n']
      (items.map fun it =>
        ("<li style=\"margin:8px 0;line-height:1.8\">").data
        ++ formatInline it ++ ("</li>").data)
  ++ ("</ul>").data

/-- `MarkdownParser._render_blockquote` applied to
`'\n'.join(blockquote_content)` (re-splitting the join on newlines gives the
accumulated lines back, since accumulated quote lines never contain a
newline). -/
def renderBlockquote (linesJ : List (List Char)) : List Char :=
  ("<blockquote style=\"border-left:4px solid #dfe2e5;padding-left:16px;margin:16px 0;color:#666\">").data
  ++ joinSep ("<br/>").data (linesJ.map formatInline)
  ++ ("</blockquote>").data

/-- Dispatch of `html_lines.append(...)`: the HTML fragment each flushed
block contributes. -/
def renderBlock : Block → List Char
  | Block.header level text => renderHeader level text
  | Block.para text => renderParagraph text
  | Block.code linesJ => renderCodeBlock linesJ
  | Block.quote linesJ => renderBlockquote linesJ
  | Block.ulist items => renderList items
  | Block.hr => ("<hr/>").data

/-- `MarkdownParser.parse`: the rendered blocks joined with newlines. -/
def parse (content : String) : String :=
  String.mk (joinSep ['\n'] ((parseLines (splitLines content.data)).map renderBlock))

/-- `WeChatArticleFormatter.extract_title`, scanning the split lines. -/
def extractTitleLines : List (List Char) → List Char
  | [] => ('未' :: '命' :: '名' :: '文' :: '章' ::[])
  | l :: ls =>
    let t := stripL l
    if startsWithL t ['#', ' '] then stripL (t.drop 2)
    else extractTitleLines ls

/-- `WeChatArticleFormatter.extract_title` on the raw content string. -/
def extractTitle (content : String) : List Char :=
  extractTitleLines (splitLines content.data)

/-! ## The formatting boundary `WeChatArticleFormatter.format_article`

File reads and writes are modelled by an explicit file-system map
`fs : String → Option String` (path to content); the effect of the one
`write_text` call is reported as the written path (`Option String`); the
written content itself (`_generate_html`, a fixed document template around
the parsed body) is not inspected by any claim.  The `cover`/`images`
arguments only influence that template and are omitted from the model. -/

/-- `THEMES.get(theme, THEMES[DEFAULT_THEME])["name"]`: the display name of
the selected theme, falling back to the default theme `elegant`. -/
def themeDisplayName (theme : String) : String :=
  if theme = "elegant" then "优雅简洁"
  else if theme = "dark" then "暗黑风格"
  else if theme = "blue" then "蓝色清新"
  else if theme = "pink" then "粉色可爱"
  else if theme = "minimal" then "极简白"
  else "优雅简洁"

/-- The structured result dictionary returned by `format_article` (`theme`
is absent from the failure dictionary, hence optional). -/
structure FormatResult where
  success : Bool
  outputPath : Option String
  title : Option String
  themeName : Option String
  wordCount : Nat
  error : Option String
deriving DecidableEq, Repr

/-- `WeChatArticleFormatter.format_article`: the structured result, paired
with the path written (`none` when no output file is written). -/
def formatArticle (fs : String → Option String) (inputPath outputPath : String)
    (theme : String) (title : Option String) : FormatResult × Option String :=
  match fs inputPath with
  | none =>
    ({ success := false, outputPath := none, title := none, themeName := none,
       wordCount := 0, error := some ("文件不存在: " ++ inputPath) }, none)
  | some content =>
    let resolved :=
      match title with
      | none => String.mk (extractTitle content)
      | some t => if t = "" then String.mk (extractTitle content) else t
    ({ success := true, outputPath := some outputPath, title := some resolved,
       themeName := some (themeDisplayName theme), wordCount := content.length,
       error := none }, some outputPath)

/-! ## Helper lemmas -/

lemma takeWhile_app (p : Char → Bool) {xs : List Char} {y : Char} (ys : List Char)
    (h : ∀ c ∈ xs, p c = true) (hy : p y = false) :
    (xs ++ y :: ys).takeWhile p = xs := by
  induction xs with
  | nil => simp [List.takeWhile_cons, hy]
  | cons a l ih =>
    have ha : p a = true := h a (List.mem_cons_self a l)
    simp only [List.cons_append, List.takeWhile_cons, ha, if_true]
    rw [ih (fun c hc => h c (List.mem_cons_of_mem _ hc))]

lemma dropWhile_app (p : Char → Bool) {xs : List Char} {y : Char} (ys : List Char)
    (h : ∀ c ∈ xs, p c = true) (hy : p y = false) :
    (xs ++ y :: ys).dropWhile p = y :: ys := by
  induction xs with
  | nil => simp [List.dropWhile_cons, hy]
  | cons a l ih =>
    have ha : p a = true := h a (List.mem_cons_self a l)
    simp only [List.cons_append, List.dropWhile_cons, ha, if_true]
    exact ih (fun c hc => h c (List.mem_cons_of_mem _ hc))

lemma dropWhile_dropWhile (p : Char → Bool) (l : List Char) :
    (l.dropWhile p).dropWhile p = l.dropWhile p := by
  induction l with
  | nil => rfl
  | cons c r ih =>
    by_cases hc : p c = true
    · simp [List.dropWhile_cons, hc, ih]
    · simp only [Bool.not_eq_true] at hc
      simp [List.dropWhile_cons, hc]

lemma rstripL_idem (l : List Char) : rstripL (rstripL l) = rstripL l := by
  unfold rstripL
  rw [List.reverse_reverse, dropWhile_dropWhile]

lemma mem_rstripL {c : Char} {l : List Char} (h : c ∈ rstripL l) : c ∈ l := by
  unfold rstripL at h
  rw [List.mem_reverse] at h
  exact List.mem_reverse.mp ((List.dropWhile_sublist _).mem h)

lemma rstripL_eq_nil_iff {l : List Char} :
    rstripL l = [] ↔ ∀ c ∈ l, pyIsSpace c = true := by
  unfold rstripL
  rw [List.reverse_eq_nil_iff, List.dropWhile_eq_nil_iff]
  constructor
  · intro h c hc; exact h c (List.mem_reverse.mpr hc)
  · intro h c hc; exact h c (List.mem_reverse.mp hc)

lemma stripL_eq_nil_iff {l : List Char} :
    stripL l = [] ↔ ∀ c ∈ l, pyIsSpace c = true := by
  unfold stripL lstripL
  rw [List.dropWhile_eq_nil_iff]
  constructor
  · intro h c hc
    have hsplit := List.takeWhile_append_dropWhile (p := pyIsSpace) (l := l.reverse)
    have : c ∈ l.reverse := List.mem_reverse.mpr hc
    rw [← hsplit] at this
    rcases List.mem_append.mp this with h1 | h1
    · exact List.mem_takeWhile_imp h1
    · exact h c (by unfold rstripL; exact List.mem_reverse.mpr h1)
  · intro h c hc
    exact h c (mem_rstripL hc)

lemma stripL_rstripL_ne_nil {raw : List Char} (h : rstripL raw ≠ []) :
    stripL (rstripL raw) ≠ [] := by
  intro hc
  rw [stripL_eq_nil_iff] at hc
  exact h (by
    rw [← rstripL_idem raw]
    exact rstripL_eq_nil_iff.mpr hc)

lemma startsWithL_false_of_head {c p : Char} {r ps : List Char} (h : ¬(c = p)) :
    startsWithL (c :: r) (p :: ps) = false := by
  simp [startsWithL, h]

lemma startsWithL_single_true {c : Char} (r : List Char) :
    startsWithL (c :: r) [c] = true := by
  simp [startsWithL]

lemma hashCount_pos {t : List Char} (h : 1 ≤ hashCount t) : ∃ r, t = '#' :: r := by
  cases t with
  | nil => simp [hashCount] at h
  | cons c r =>
    by_cases hc : c = '#'
    · exact ⟨r, by rw [hc]⟩
    · exfalso
      simp [hashCount, List.takeWhile_cons, hc] at h

lemma hashCount_cons_hash (r : List Char) :
    hashCount ('#' :: r) = hashCount r + 1 := by
  simp [hashCount, List.takeWhile_cons]

/-! ## Claim C3 -/

/-- Claim C3 as stated is false: the heading text is the remainder after
`level + 1` characters (`line[level+1:]`), not after the `level` leading
`#` characters.  On the line `#x` the code yields a heading with empty text,
where the claim predicts text `x`. -/
theorem c3_counterexample :
    parseLines [('#' :: 'x' :: [])] = [Block.header 1 []] ∧
    parseLines [('#' :: 'x' :: [])] ≠ [Block.header 1 ('x' :: [])] := by
  decide

/-- Claim C3, amended: outside a code fence (and outside an open
blockquote), a line with one to six leading `#` emits a Heading whose level
is the count of leading `#` and whose text is the rest of the line after
the first `level + 1` characters, trimmed; a line with seven or more
leading `#` is not a heading and ends up a paragraph. -/
theorem c3_theorem (s : PState) (raw : List Char)
    (hc : s.inCode = false) (hq : s.inQuote = false) :
    (1 ≤ hashCount (rstripL raw) → hashCount (rstripL raw) ≤ 6 →
      (step s raw).out = s.out ++
        [Block.header (hashCount (rstripL raw))
          (stripL ((rstripL raw).drop (hashCount (rstripL raw) + 1)))]) ∧
    (7 ≤ hashCount (rstripL raw) → s.inList = false →
      (step s raw).out = s.out ++ [Block.para (rstripL raw)]) := by
  constructor
  · intro h1 h2
    obtain ⟨r, hr⟩ := hashCount_pos h1
    have hfence : startsWithL (rstripL raw) fenceM = false := by
      rw [hr]; exact startsWithL_false_of_head (by decide)
    have hgt : startsWithL (rstripL raw) ['>'] = false := by
      rw [hr]; exact startsWithL_false_of_head (by decide)
    have hhash : startsWithL (rstripL raw) ['#'] = true := by
      rw [hr]; exact startsWithL_single_true r
    simp [step, hfence, hgt, hhash, hc, hq, h1, h2]
  · intro h7 hl
    obtain ⟨r, hr⟩ := hashCount_pos (t := rstripL raw) (by omega)
    have h6 : ¬(hashCount (rstripL raw) ≤ 6) := by omega
    have hfence : startsWithL (rstripL raw) fenceM = false := by
      rw [hr]; exact startsWithL_false_of_head (by decide)
    have hgt : startsWithL (rstripL raw) ['>'] = false := by
      rw [hr]; exact startsWithL_false_of_head (by decide)
    have hhr : startsWithL (rstripL raw) ['-', '-', '-'] = false := by
      rw [hr]; exact startsWithL_false_of_head (by decide)
    have hli1 : startsWithL (rstripL raw) ['-', ' '] = false := by
      rw [hr]; exact startsWithL_false_of_head (by decide)
    have hli2 : startsWithL (rstripL raw) ['*', ' '] = false := by
      rw [hr]; exact startsWithL_false_of_head (by decide)
    have hne : rstripL raw ≠ [] := by rw [hr]; exact List.cons_ne_nil _ _
    have hstrip : stripL (rstripL raw) ≠ [] := stripL_rstripL_ne_nil hne
    simp [step, hfence, hgt, hc, hq, hl, h6, hhr, hli1, hli2, hstrip]

/-- Witness for `c3_theorem` at the line `## t`. -/
theorem c3_witness :
    1 ≤ hashCount (rstripL ("## t").data) ∧ hashCount (rstripL ("## t").data) ≤ 6 ∧
    (step initState ("## t").data).out = initState.out ++
      [Block.header (hashCount (rstripL ("## t").data))
        (stripL ((rstripL ("## t").data).drop (hashCount (rstripL ("## t").data) + 1)))] :=
  ⟨by decide, by decide,
    (c3_theorem initState ("## t").data rfl rfl).1 (by decide) (by decide)⟩

/-! ## Claim C1 -/

/-- Claim C1 as stated is false: a heading line arriving while a list is
open does not flush the list first; the heading is emitted immediately, the
list stays open, and its block is flushed only later, after the heading. -/
theorem c1_counterexample :
    parseLines [('-' :: ' ' :: 'a' :: []), ('#' :: ' ' :: 'H' :: [])]
      = [Block.header 1 ('H' :: []), Block.ulist [['a']]] ∧
    parseLines [('-' :: ' ' :: 'a' :: []), ('#' :: ' ' :: 'H' :: [])]
      ≠ [Block.ulist [['a']], Block.header 1 ('H' :: [])] := by
  decide

lemma startsWithL_head_inv {t : List Char} {p : Char} {ps : List Char}
    (h : startsWithL t (p :: ps) = true) : ∃ r, t = p :: r := by
  cases t with
  | nil => simp [startsWithL] at h
  | cons c r =>
    by_cases hc : c = p
    · exact ⟨r, by rw [hc]⟩
    · rw [startsWithL_false_of_head hc] at h
      exact absurd h (by simp)

lemma startsWithL_cons2_inv {t : List Char} {p q : Char} {ps : List Char}
    (h : startsWithL t (p :: q :: ps) = true) : ∃ r, t = p :: q :: r := by
  match t with
  | [] => simp [startsWithL] at h
  | [c] => simp [startsWithL] at h
  | c :: d :: r =>
    simp only [startsWithL, Bool.and_eq_true, decide_eq_true_eq] at h
    exact ⟨r, by rw [h.1, h.2.1]⟩

lemma startsWithL_two_false {c d : Char} {r : List Char} {p q : Char}
    {ps : List Char} (h : ¬(d = q)) :
    startsWithL (c :: d :: r) (p :: q :: ps) = false := by
  simp [startsWithL, h]

/-- Claim C1, amended: while a list accumulation is active (outside a code
fence), a blank line flushes the list, and an ordinary paragraph line (one
that is not a fence, blockquote, heading, rule, or list-item line) flushes
the list before the paragraph block of that line; but fence, blockquote,
heading, and horizontal-rule lines do not flush the open list — each is
handled before the list checks, with the list left open and its items
intact — and a later list-item line is merged into the still-open list. -/
theorem c1_theorem (s : PState) (raw : List Char)
    (hl : s.inList = true) (hc : s.inCode = false) :
    (rstripL raw = [] →
      (step s raw).out = s.out ++ [Block.ulist s.listItems] ∧
      (step s raw).inList = false) ∧
    (s.inQuote = false → rstripL raw ≠ [] →
      startsWithL (rstripL raw) fenceM = false →
      startsWithL (rstripL raw) ['>'] = false →
      ¬(startsWithL (rstripL raw) ['#'] = true ∧ 1 ≤ hashCount (rstripL raw) ∧
        hashCount (rstripL raw) ≤ 6) →
      startsWithL (rstripL raw) ['-', '-', '-'] = false →
      startsWithL (rstripL raw) ['-', ' '] = false →
      startsWithL (rstripL raw) ['*', ' '] = false →
      (step s raw).out = s.out ++ [Block.ulist s.listItems, Block.para (rstripL raw)]) ∧
    (s.inQuote = false → 1 ≤ hashCount (rstripL raw) → hashCount (rstripL raw) ≤ 6 →
      (step s raw).out = s.out ++
        [Block.header (hashCount (rstripL raw))
          (stripL ((rstripL raw).drop (hashCount (rstripL raw) + 1)))] ∧
      (step s raw).inList = true ∧ (step s raw).listItems = s.listItems) ∧
    (startsWithL (rstripL raw) fenceM = true →
      (step s raw).out = s.out ∧ (step s raw).inList = true ∧
      (step s raw).listItems = s.listItems) ∧
    (s.inQuote = false → s.quoteContent = [] →
      startsWithL (rstripL raw) ['>'] = true →
      (step s raw).out = s.out ∧ (step s raw).inList = true ∧
      (step s raw).listItems = s.listItems) ∧
    (s.inQuote = false → startsWithL (rstripL raw) ['-', '-', '-'] = true →
      (step s raw).out = s.out ++ [Block.hr] ∧ (step s raw).inList = true ∧
      (step s raw).listItems = s.listItems) ∧
    (s.inQuote = false →
      (startsWithL (rstripL raw) ['-', ' '] = true ∨
        startsWithL (rstripL raw) ['*', ' '] = true) →
      (step s raw).out = s.out ∧ (step s raw).inList = true ∧
      (step s raw).listItems = s.listItems ++ [stripL ((rstripL raw).drop 2)]) := by
  refine ⟨?_, ?_, ?_, ?_, ?_, ?_, ?_⟩
  · intro hb
    simp [step, hb, hc, hl,
      (by decide : startsWithL ([] : List Char) fenceM = false),
      (by decide : startsWithL ([] : List Char) ['>'] = false),
      (by decide : startsWithL ([] : List Char) ['#'] = false),
      (by decide : startsWithL ([] : List Char) ['-', '-', '-'] = false),
      (by decide : startsWithL ([] : List Char) ['-', ' '] = false),
      (by decide : startsWithL ([] : List Char) ['*', ' '] = false),
      (by decide : hashCount ([] : List Char) = 0),
      (by decide : stripL ([] : List Char) = [])]
  · intro hq hne hfence hgt hH hhr hd hst
    have hstrip : stripL (rstripL raw) ≠ [] := stripL_rstripL_ne_nil hne
    simp [step, hfence, hgt, hH, hc, hq, hl, hhr, hd, hst, hstrip]
  · intro hq h1 h2
    obtain ⟨r, hr⟩ := hashCount_pos h1
    have hfence : startsWithL (rstripL raw) fenceM = false := by
      rw [hr]; exact startsWithL_false_of_head (by decide)
    have hgt : startsWithL (rstripL raw) ['>'] = false := by
      rw [hr]; exact startsWithL_false_of_head (by decide)
    have hhash : startsWithL (rstripL raw) ['#'] = true := by
      rw [hr]; exact startsWithL_single_true r
    simp [step, hfence, hgt, hhash, hc, hq, hl, h1, h2]
  · intro hF
    simp [step, hF, hc, hl]
  · intro hq hqe hG
    obtain ⟨r, hr⟩ := startsWithL_head_inv hG
    have hfence : startsWithL (rstripL raw) fenceM = false := by
      rw [hr]; exact startsWithL_false_of_head (by decide)
    simp [step, hfence, hG, hc, hq, hqe, hl]
  · intro hq hR
    obtain ⟨r, hr⟩ := startsWithL_head_inv hR
    have hfence : startsWithL (rstripL raw) fenceM = false := by
      rw [hr]; exact startsWithL_false_of_head (by decide)
    have hgt : startsWithL (rstripL raw) ['>'] = false := by
      rw [hr]; exact startsWithL_false_of_head (by decide)
    have hhash : startsWithL (rstripL raw) ['#'] = false := by
      rw [hr]; exact startsWithL_false_of_head (by decide)
    simp [step, hfence, hgt, hhash, hR, hc, hq, hl]
  · intro hq hLi
    rcases hLi with hd | hst
    · obtain ⟨r2, ht⟩ := startsWithL_cons2_inv hd
      have hfence : startsWithL (rstripL raw) fenceM = false := by
        rw [ht]; exact startsWithL_false_of_head (by decide)
      have hgt : startsWithL (rstripL raw) ['>'] = false := by
        rw [ht]; exact startsWithL_false_of_head (by decide)
      have hhash : startsWithL (rstripL raw) ['#'] = false := by
        rw [ht]; exact startsWithL_false_of_head (by decide)
      have hhr : startsWithL (rstripL raw) ['-', '-', '-'] = false := by
        rw [ht]; exact startsWithL_two_false (by decide)
      simp [step, hfence, hgt, hhash, hhr, hd, hc, hq, hl]
    · obtain ⟨r2, ht⟩ := startsWithL_cons2_inv hst
      have hfence : startsWithL (rstripL raw) fenceM = false := by
        rw [ht]; exact startsWithL_false_of_head (by decide)
      have hgt : startsWithL (rstripL raw) ['>'] = false := by
        rw [ht]; exact startsWithL_false_of_head (by decide)
      have hhash : startsWithL (rstripL raw) ['#'] = false := by
        rw [ht]; exact startsWithL_false_of_head (by decide)
      have hhr : startsWithL (rstripL raw) ['-', '-', '-'] = false := by
        rw [ht]; exact startsWithL_false_of_head (by decide)
      have hdf : startsWithL (rstripL raw) ['-', ' '] = false := by
        rw [ht]; exact startsWithL_false_of_head (by decide)
      simp [step, hfence, hgt, hhash, hhr, hdf, hst, hc, hq, hl]

/-- Witness for `c1_theorem`: a one-item list state fed a blank line, an
ordinary paragraph line starting with a dash (`-x`), a heading line, a
fence line, and a later list-item line. -/
theorem c1_witness :
    (step (⟨[], false, [], false, [], true, [['a']]⟩ : PState) []).out
      = [Block.ulist [['a']]] ∧
    (step (⟨[], false, [], false, [], true, [['a']]⟩ : PState) ('-' :: 'x' :: [])).out
      = [Block.ulist [['a']], Block.para ('-' :: 'x' :: [])] ∧
    (step (⟨[], false, [], false, [], true, [['a']]⟩ : PState)
        ('#' :: ' ' :: 'H' :: [])).inList = true ∧
    (step (⟨[], false, [], false, [], true, [['a']]⟩ : PState) fenceM).out = [] ∧
    (step (⟨[], false, [], false, [], true, [['a']]⟩ : PState)
        ('-' :: ' ' :: 'b' :: [])).listItems = [['a'], ['b']] :=
  ⟨((c1_theorem (⟨[], false, [], false, [], true, [['a']]⟩ : PState) [] rfl rfl).1 rfl).1,
   (c1_theorem (⟨[], false, [], false, [], true, [['a']]⟩ : PState) ('-' :: 'x' :: []) rfl rfl).2.1
      rfl (by decide) (by decide) (by decide) (by decide) (by decide) (by decide) (by decide),
   ((c1_theorem (⟨[], false, [], false, [], true, [['a']]⟩ : PState)
      ('#' :: ' ' :: 'H' :: []) rfl rfl).2.2.1 rfl (by decide) (by decide)).2.1,
   ((c1_theorem (⟨[], false, [], false, [], true, [['a']]⟩ : PState)
      fenceM rfl rfl).2.2.2.1 (by decide)).1,
   ((c1_theorem (⟨[], false, [], false, [], true, [['a']]⟩ : PState)
      ('-' :: ' ' :: 'b' :: []) rfl rfl).2.2.2.2.2.2 rfl (Or.inl (by decide))).2.2⟩

lemma startsWithL_single_inv {t : List Char} {p : Char}
    (h : startsWithL t [p] = true) : ∃ r, t = p :: r := by
  cases t with
  | nil => simp [startsWithL] at h
  | cons c r =>
    by_cases hc : c = p
    · exact ⟨r, by rw [hc]⟩
    · rw [startsWithL_false_of_head hc] at h
      exact absurd h (by simp)

/-! ## Claim C2 -/

/-- Claim C2: a blank line never closes an open blockquote (state and
accumulated lines are untouched); the quote closes in a step only on a
non-blank line not starting with `>`; on such a line (outside a fence) the
close is processed first and the line is then reclassified exactly as it
would be from the quote-cleared state, in the same pass; and
`["> a", "", "> b"]` yields one blockquote holding both stripped lines. -/
theorem c2_theorem (s : PState) (raw : List Char) (hq : s.inQuote = true) :
    (rstripL raw = [] →
      (step s raw).inQuote = true ∧ (step s raw).quoteContent = s.quoteContent) ∧
    ((step s raw).inQuote = false →
      rstripL raw ≠ [] ∧ startsWithL (rstripL raw) ['>'] = false) ∧
    (s.inCode = false → rstripL raw ≠ [] →
      startsWithL (rstripL raw) ['>'] = false →
      startsWithL (rstripL raw) fenceM = false →
      step s raw = step { s with out := s.out ++ [Block.quote s.quoteContent],
                                 inQuote := false, quoteContent := [] } raw) ∧
    parseLines [('>' :: ' ' :: 'a' :: []), [], ('>' :: ' ' :: 'b' :: [])]
      = [Block.quote [['a'], ['b']]] := by
  refine ⟨?_, ?_, ?_, by decide⟩
  · intro hb
    by_cases hcode : s.inCode = true
    · simp [step, hb, hcode, hq,
        (by decide : startsWithL ([] : List Char) fenceM = false)]
    · rw [Bool.not_eq_true] at hcode
      simp [step, hb, hcode, hq,
        (by decide : startsWithL ([] : List Char) fenceM = false),
        (by decide : startsWithL ([] : List Char) ['>'] = false),
        (by decide : startsWithL ([] : List Char) ['#'] = false),
        (by decide : startsWithL ([] : List Char) ['-', '-', '-'] = false),
        (by decide : startsWithL ([] : List Char) ['-', ' '] = false),
        (by decide : startsWithL ([] : List Char) ['*', ' '] = false),
        (by decide : hashCount ([] : List Char) = 0),
        (by decide : stripL ([] : List Char) = []),
        apply_ite PState.inQuote, apply_ite PState.quoteContent]
  · intro h2
    constructor
    · by_contra hb
      by_cases hcode : s.inCode = true
      · simp [step, hb, hcode, hq,
          (by decide : startsWithL ([] : List Char) fenceM = false)] at h2
      · rw [Bool.not_eq_true] at hcode
        simp [step, hb, hcode, hq,
          (by decide : startsWithL ([] : List Char) fenceM = false),
          (by decide : startsWithL ([] : List Char) ['>'] = false),
          (by decide : startsWithL ([] : List Char) ['#'] = false),
          (by decide : startsWithL ([] : List Char) ['-', '-', '-'] = false),
          (by decide : startsWithL ([] : List Char) ['-', ' '] = false),
          (by decide : startsWithL ([] : List Char) ['*', ' '] = false),
          (by decide : hashCount ([] : List Char) = 0),
          (by decide : stripL ([] : List Char) = []),
          apply_ite PState.inQuote] at h2
    · by_cases hB : startsWithL (rstripL raw) ['>'] = true
      · exfalso
        obtain ⟨r, hr⟩ := startsWithL_single_inv hB
        have hfence : startsWithL (rstripL raw) fenceM = false := by
          rw [hr]; exact startsWithL_false_of_head (by decide)
        by_cases hcode : s.inCode = true
        · simp [step, hfence, hcode, hq] at h2
        · rw [Bool.not_eq_true] at hcode
          simp [step, hfence, hB, hcode, hq] at h2
      · rw [Bool.not_eq_true] at hB
        exact hB
  · intro hc hne hgt hfence
    simp [step, hfence, hgt, hc, hq, hne]

/-- Witness for `c2_theorem`: a one-line open blockquote fed a blank line. -/
theorem c2_witness :
    (step (⟨[], false, [], true, [['q']], false, []⟩ : PState) []).inQuote = true ∧
    (step (⟨[], false, [], true, [['q']], false, []⟩ : PState) []).quoteContent
      = [['q']] :=
  (c2_theorem (⟨[], false, [], true, [['q']], false, []⟩ : PState) [] rfl).1 rfl

/-! ## Claim C4 -/

/-- Claim C4 as stated is false only in the fallback literal: with no `# `
line the code returns the fixed literal `未命名文章`, not the literal
`Untitled`. -/
theorem c4_counterexample :
    extractTitle "body" = ('未' :: '命' :: '名' :: '文' :: '章' :: []) ∧
    extractTitle "body" ≠ ("Untitled").data := by
  decide

/-- Claim C4, amended: title extraction scans lines in order and returns
the trimmed remainder of the first line whose trimmed form starts with
`# `; if no such line exists it returns the fixed fallback literal
`未命名文章`.  In particular `"# Hello\nbody"` yields `"Hello"`. -/
theorem c4_theorem :
    extractTitle "# Hello\nbody" = ('H' :: 'e' :: 'l' :: 'l' :: 'o' :: []) ∧
    (∀ ls : List (List Char),
      (∀ l ∈ ls, startsWithL (stripL l) ['#', ' '] = false) →
      extractTitleLines ls = ('未' :: '命' :: '名' :: '文' :: '章' :: [])) ∧
    (∀ (pre : List (List Char)) (l : List Char) (post : List (List Char)),
      (∀ x ∈ pre, startsWithL (stripL x) ['#', ' '] = false) →
      startsWithL (stripL l) ['#', ' '] = true →
      extractTitleLines (pre ++ l :: post) = stripL ((stripL l).drop 2)) := by
  refine ⟨by decide, ?_, ?_⟩
  · intro ls h
    induction ls with
    | nil => rfl
    | cons x xs ih =>
      have hx := h x (List.mem_cons_self x xs)
      simp [extractTitleLines, hx]
      exact ih (fun y hy => h y (List.mem_cons_of_mem _ hy))
  · intro pre l post hpre hl
    induction pre with
    | nil => simp [extractTitleLines, hl]
    | cons x xs ih =>
      have hx := hpre x (List.mem_cons_self x xs)
      simp [extractTitleLines, hx]
      exact ih (fun y hy => hpre y (List.mem_cons_of_mem _ hy))

/-! ## Claim C5 -/

/-- Claim C5 as stated is false for one accumulator shape: an opening fence
directly before end of input leaves a still-open code accumulator with an
empty buffer, and finalize drops it instead of flushing a Block (the
residue handling requires a non-empty buffer). -/
theorem c5_counterexample :
    parseLines [[btick, btick, btick]] = [] ∧
    (List.foldl step initState [[btick, btick, btick]]).inCode = true := by
  decide

lemma step_close_eq (s : PState) (raw : List Char) (hq : s.inQuote = true)
    (hc : s.inCode = false) (hne : rstripL raw ≠ [])
    (hgt : startsWithL (rstripL raw) ['>'] = false)
    (hfence : startsWithL (rstripL raw) fenceM = false) :
    step s raw = step { s with out := s.out ++ [Block.quote s.quoteContent],
                               inQuote := false, quoteContent := [] } raw := by
  simp [step, hfence, hgt, hc, hq, hne]

lemma step_inv_noquote (s : PState) (raw : List Char)
    (hq : s.inQuote = false) (hc : s.inCode = false)
    (hgt : startsWithL (rstripL raw) ['>'] = false)
    (hfence : startsWithL (rstripL raw) fenceM = false)
    (h2 : s.inList = true → s.listItems ≠ []) :
    ((step s raw).inQuote = true → (step s raw).quoteContent ≠ []) ∧
    ((step s raw).inList = true → (step s raw).listItems ≠ []) := by
  by_cases hH : (startsWithL (rstripL raw) ['#'] = true ∧
      1 ≤ hashCount (rstripL raw) ∧ hashCount (rstripL raw) ≤ 6)
  · simp [step, hfence, hgt, hc, hq, hH]
    exact h2
  · by_cases hR : startsWithL (rstripL raw) ['-', '-', '-'] = true
    · simp [step, hfence, hgt, hc, hq, hH, hR]
      exact h2
    · rw [Bool.not_eq_true] at hR
      by_cases hd1 : startsWithL (rstripL raw) ['-', ' '] = true
      · simp [step, hfence, hgt, hc, hq, hH, hR, hd1]
      · rw [Bool.not_eq_true] at hd1
        by_cases hs1 : startsWithL (rstripL raw) ['*', ' '] = true
        · simp [step, hfence, hgt, hc, hq, hH, hR, hd1, hs1]
        · rw [Bool.not_eq_true] at hs1
          by_cases hIL : s.inList = true
          · by_cases hB : stripL (rstripL raw) = []
            · simp [step, hfence, hgt, hc, hq, hH, hR, hd1, hs1, hIL, hB]
            · simp [step, hfence, hgt, hc, hq, hH, hR, hd1, hs1, hIL, hB]
          · rw [Bool.not_eq_true] at hIL
            by_cases hB : stripL (rstripL raw) = []
            · simp [step, hfence, hgt, hc, hq, hH, hR, hd1, hs1, hIL, hB]
            · simp [step, hfence, hgt, hc, hq, hH, hR, hd1, hs1, hIL, hB]

lemma step_inv (s : PState) (raw : List Char)
    (h1 : s.inQuote = true → s.quoteContent ≠ [])
    (h2 : s.inList = true → s.listItems ≠ []) :
    ((step s raw).inQuote = true → (step s raw).quoteContent ≠ []) ∧
    ((step s raw).inList = true → (step s raw).listItems ≠ []) := by
  by_cases hF : startsWithL (rstripL raw) fenceM = true
  · by_cases hK : s.inCode = false
    · simp [step, hF, hK]; exact ⟨h1, h2⟩
    · rw [Bool.not_eq_false] at hK
      simp [step, hF, hK]; exact ⟨h1, h2⟩
  · rw [Bool.not_eq_true] at hF
    by_cases hK : s.inCode = true
    · simp [step, hF, hK]; exact ⟨h1, h2⟩
    · rw [Bool.not_eq_true] at hK
      by_cases hG : startsWithL (rstripL raw) ['>'] = true
      · by_cases hQ : s.inQuote = true
        · simp [step, hF, hK, hG, hQ]; exact h2
        · rw [Bool.not_eq_true] at hQ
          by_cases hqc : s.quoteContent = []
          · simp [step, hF, hK, hG, hQ, hqc]; exact h2
          · simp [step, hF, hK, hG, hQ, hqc]; exact h2
      · rw [Bool.not_eq_true] at hG
        by_cases hQ : s.inQuote = true
        · by_cases hN : rstripL raw = []
          · -- blank line while a quote is open: nothing happens to the quote
            simp [step, hF, hK, hG, hQ, hN,
              (by decide : startsWithL ([] : List Char) fenceM = false),
              (by decide : startsWithL ([] : List Char) ['>'] = false),
              (by decide : startsWithL ([] : List Char) ['#'] = false),
              (by decide : startsWithL ([] : List Char) ['-', '-', '-'] = false),
              (by decide : startsWithL ([] : List Char) ['-', ' '] = false),
              (by decide : startsWithL ([] : List Char) ['*', ' '] = false),
              (by decide : hashCount ([] : List Char) = 0),
              (by decide : stripL ([] : List Char) = [])]
            by_cases hIL : s.inList = true
            · simp [hIL]; exact h1 hQ
            · rw [Bool.not_eq_true] at hIL
              simp [hIL]; exact h1
          · -- non-blank, non-quote line: the quote closes first and the rest
            -- of the pass is the pass over the quote-cleared state
            rw [step_close_eq s raw hQ hK hN hG hF]
            exact step_inv_noquote _ raw rfl hK hG hF h2
        · rw [Bool.not_eq_true] at hQ
          exact step_inv_noquote s raw hQ hK hG hF h2

lemma foldl_inv (ls : List (List Char)) : ∀ s : PState,
    (s.inQuote = true → s.quoteContent ≠ []) →
    (s.inList = true → s.listItems ≠ []) →
    ((ls.foldl step s).inQuote = true → (ls.foldl step s).quoteContent ≠ []) ∧
    ((ls.foldl step s).inList = true → (ls.foldl step s).listItems ≠ []) := by
  induction ls with
  | nil => exact fun s h1 h2 => ⟨h1, h2⟩
  | cons l ls ih =>
    intro s h1 h2
    have hstep := step_inv s l h1 h2
    exact ih (step s l) hstep.1 hstep.2

/-- Claim C5, amended: parsing is the loop over lines followed by the
residue handling, which flushes each accumulator that is open with
non-empty content; open blockquote and list accumulators always have
non-empty content (so they are always flushed), while an open code
accumulator with an empty buffer is silently dropped.  In particular
`["- a", "- b"]` directly before end of input yields the flushed list. -/
theorem c5_theorem :
    (∀ ls : List (List Char),
      parseLines ls =
        (ls.foldl step initState).out ++ finalFlush (ls.foldl step initState)) ∧
    (∀ ls : List (List Char),
      ((ls.foldl step initState).inQuote = true →
        (ls.foldl step initState).quoteContent ≠ []) ∧
      ((ls.foldl step initState).inList = true →
        (ls.foldl step initState).listItems ≠ [])) ∧
    parseLines [('-' :: ' ' :: 'a' :: []), ('-' :: ' ' :: 'b' :: [])]
      = [Block.ulist [['a'], ['b']]] :=
  ⟨fun _ => rfl,
   fun ls => foldl_inv ls initState (by decide) (by decide),
   by decide⟩

/-! ## Claim C9 -/

/-- Claim C9: for levels 1..6 the rendered heading fragment's font-size is
taken from the fixed table 28/24/20/18/16/14 px, determined by the level
alone (the text only appears escaped in the element body). -/
theorem c9_theorem (n : Nat) (t : List Char) (h1 : 1 ≤ n) (h2 : n ≤ 6) :
    renderBlock (Block.header n t)
      = ("<h").data ++ (Nat.repr n).data ++ (" style=\"font-size:").data
        ++ fontSize n
        ++ (";margin:24px 0 16px;font-weight:600;color:#1f2328\">").data
        ++ escapeL t
        ++ ("</h").data ++ (Nat.repr n).data ++ (">").data ∧
    fontSize 1 = ('2' :: '8' :: 'p' :: 'x' :: []) ∧
    fontSize 2 = ('2' :: '4' :: 'p' :: 'x' :: []) ∧
    fontSize 3 = ('2' :: '0' :: 'p' :: 'x' :: []) ∧
    fontSize 4 = ('1' :: '8' :: 'p' :: 'x' :: []) ∧
    fontSize 5 = ('1' :: '6' :: 'p' :: 'x' :: []) ∧
    fontSize 6 = ('1' :: '4' :: 'p' :: 'x' :: []) :=
  ⟨rfl, rfl, rfl, rfl, rfl, rfl, rfl⟩

/-- Witness for `c9_theorem` at level 3. -/
theorem c9_witness :
    1 ≤ 3 ∧ 3 ≤ 6 ∧
    (renderBlock (Block.header 3 ('x' :: []))
      = ("<h").data ++ (Nat.repr 3).data ++ (" style=\"font-size:").data
        ++ fontSize 3
        ++ (";margin:24px 0 16px;font-weight:600;color:#1f2328\">").data
        ++ escapeL ('x' :: [])
        ++ ("</h").data ++ (Nat.repr 3).data ++ (">").data ∧
    fontSize 1 = ('2' :: '8' :: 'p' :: 'x' :: []) ∧
    fontSize 2 = ('2' :: '4' :: 'p' :: 'x' :: []) ∧
    fontSize 3 = ('2' :: '0' :: 'p' :: 'x' :: []) ∧
    fontSize 4 = ('1' :: '8' :: 'p' :: 'x' :: []) ∧
    fontSize 5 = ('1' :: '6' :: 'p' :: 'x' :: []) ∧
    fontSize 6 = ('1' :: '4' :: 'p' :: 'x' :: [])) :=
  ⟨by decide, by decide, c9_theorem 3 ('x' :: []) (by decide) (by decide)⟩

/-! ## Claim C10 -/

/-- Claim C10: the formatting boundary returns a structured result with an
explicit success flag and error string; when the input file is missing the
result has `success = false` with a diagnostic naming the path and nothing
is written, and when the file exists the call succeeds, writes the output
path, and reports the source's character count.  (The parser itself is the
total function `parse`; no exception state exists in the model.) -/
theorem c10_theorem (fs : String → Option String) (inp outp theme : String)
    (ti : Option String) :
    (fs inp = none →
      (formatArticle fs inp outp theme ti).1.success = false ∧
      (formatArticle fs inp outp theme ti).1.error = some ("文件不存在: " ++ inp) ∧
      (formatArticle fs inp outp theme ti).2 = none) ∧
    (∀ c : String, fs inp = some c →
      (formatArticle fs inp outp theme ti).1.success = true ∧
      (formatArticle fs inp outp theme ti).1.error = none ∧
      (formatArticle fs inp outp theme ti).2 = some outp ∧
      (formatArticle fs inp outp theme ti).1.wordCount = c.length) := by
  constructor
  · intro h
    simp [formatArticle, h]
  · intro c h
    simp [formatArticle, h]

/-- Witness for `c10_theorem` on an empty file system. -/
theorem c10_witness :
    (formatArticle (fun _ => none) "in.md" "out.html" "elegant" none).1.success = false ∧
    (formatArticle (fun _ => none) "in.md" "out.html" "elegant" none).1.error
      = some ("文件不存在: " ++ "in.md") ∧
    (formatArticle (fun _ => none) "in.md" "out.html" "elegant" none).2 = none :=
  (c10_theorem (fun _ => none) "in.md" "out.html" "elegant" none).1 rfl

/-! ## Claim C6 -/

lemma foldl_inCode : ∀ (ls : List (List Char)) (s : PState), s.inCode = true →
    (∀ l ∈ ls, startsWithL (rstripL l) fenceM = false) →
    ls.foldl step s = { s with codeContent := s.codeContent ++ ls.map rstripL } := by
  intro ls
  induction ls with
  | nil => intro s hs h; simp
  | cons l ls ih =>
    intro s hs h
    have hl := h l (List.mem_cons_self l ls)
    have hstep : step s l = { s with codeContent := s.codeContent ++ [rstripL l] } := by
      simp [step, hl, hs]
    rw [List.foldl_cons, hstep,
      ih ⟨s.out, s.inCode, s.codeContent ++ [rstripL l], s.inQuote,
          s.quoteContent, s.inList, s.listItems⟩
        hs (fun x hx => h x (List.mem_cons_of_mem _ hx))]
    simp

lemma escChar_not_lt (c : Char) : '<' ∉ escChar c := by
  by_cases h1 : c = '&'
  · subst h1; decide
  by_cases h2 : c = '<'
  · subst h2; decide
  by_cases h3 : c = '>'
  · subst h3; decide
  by_cases h4 : c = '"'
  · subst h4; decide
  by_cases h5 : c = squote
  · subst h5; decide
  simp [escChar, h1, h2, h3, h4, h5]
  exact fun e => h2 e.symm

lemma escapeL_not_lt (l : List Char) : '<' ∉ escapeL l := by
  unfold escapeL
  intro hmem
  rw [List.mem_flatten] at hmem
  obtain ⟨piece, hp, hc⟩ := hmem
  rw [List.mem_map] at hp
  obtain ⟨c, _, rfl⟩ := hp
  exact escChar_not_lt c hc

/-- Claim C6: between an opening and a closing fence every line is buffered
verbatim (after the global trailing-whitespace trim) with no other
classification, and flushed as one code block; the block renders as the
lines joined by newline, escaped character-by-character with `<` as `&lt;`
and `&` as `&amp;` (so no raw `<` survives), and no inline substitution is
applied to code content. -/
theorem c6_theorem (ls : List (List Char))
    (h : ∀ l ∈ ls, startsWithL (rstripL l) fenceM = false) :
    parseLines (fenceM :: (ls ++ [fenceM])) = [Block.code (ls.map rstripL)] ∧
    renderBlock (Block.code (ls.map rstripL))
      = ("<pre style=\"background:#f6f8fa;padding:16px;border-radius:8px;overflow-x:auto;margin:16px 0\"><code style=\"font-family:monospace;font-size:14px;line-height:1.6;color:#24292e\">").data
        ++ escapeL (joinSep ['\n'] (ls.map rstripL)) ++ ("</code></pre>").data ∧
    (∀ u : List Char, '<' ∉ escapeL u) ∧
    (∀ u : List Char, escapeL u = (u.map escChar).flatten) ∧
    escChar '<' = ('&' :: 'l' :: 't' :: ';' :: []) ∧
    escChar '&' = ('&' :: 'a' :: 'm' :: 'p' :: ';' :: []) := by
  refine ⟨?_, rfl, escapeL_not_lt, fun _ => rfl, by decide, by decide⟩
  have h0 : step initState fenceM = ⟨[], true, [], false, [], false, []⟩ := by decide
  unfold parseLines
  rw [List.foldl_cons, h0, List.foldl_append,
    foldl_inCode ls ⟨[], true, [], false, [], false, []⟩ rfl h]
  simp [step, finalFlush,
    (by decide : rstripL fenceM = fenceM),
    (by decide : startsWithL fenceM fenceM = true)]

/-- Witness for `c6_theorem` on a fenced block holding a heading-like
line. -/
theorem c6_witness :
    (∀ l ∈ [("# x").data], startsWithL (rstripL l) fenceM = false) ∧
    parseLines (fenceM :: ([("# x").data] ++ [fenceM]))
      = [Block.code ([("# x").data].map rstripL)] :=
  ⟨by decide, (c6_theorem [("# x").data] (by decide)).1⟩

/-! ## Inline-formatter lemmas (for claims C7 and C8) -/

lemma scanSub_nil (m : List Char → Option (List Char × List Char)) (f : Nat) :
    scanSub m f [] = [] := by
  cases f <;> rfl

lemma scanSub_congr_none (m : List Char → Option (List Char × List Char))
    (bad : Char) (hm : ∀ l : List Char, bad ∉ l → m l = none) :
    ∀ (f : Nat) (l : List Char), bad ∉ l → scanSub m f l = l := by
  intro f
  induction f with
  | zero => intro l _; rfl
  | succ f ih =>
    intro l hl
    cases l with
    | nil => rfl
    | cons c rest =>
      have hrest : bad ∉ rest := fun hx => hl (List.mem_cons_of_mem _ hx)
      simp only [scanSub, hm _ hl]
      rw [ih rest hrest]

lemma codeMatch_none {l : List Char} (h : btick ∉ l) : codeMatch l = none := by
  cases l with
  | nil => rfl
  | cons c rest =>
    have hc : ¬(c = btick) := fun e => h (e ▸ List.mem_cons_self c rest)
    simp [codeMatch, hc]

lemma boldMatch_none {l : List Char} (h : '*' ∉ l) : boldMatch l = none := by
  match l with
  | [] => rfl
  | [c] => rfl
  | c1 :: c2 :: rest =>
    have hc : ¬(c1 = '*') := fun e => h (e ▸ List.mem_cons_self c1 (c2 :: rest))
    simp [boldMatch, hc]

lemma italMatch_none {l : List Char} (h : '*' ∉ l) : italMatch l = none := by
  cases l with
  | nil => rfl
  | cons c rest =>
    have hc : ¬(c = '*') := fun e => h (e ▸ List.mem_cons_self c rest)
    simp [italMatch, hc]

lemma strikeMatch_none {l : List Char} (h : '~' ∉ l) : strikeMatch l = none := by
  match l with
  | [] => rfl
  | [c] => rfl
  | c1 :: c2 :: rest =>
    have hc : ¬(c1 = '~') := fun e => h (e ▸ List.mem_cons_self c1 (c2 :: rest))
    simp [strikeMatch, hc]

lemma linkMatch_none {l : List Char} (h : '[' ∉ l) : linkMatch l = none := by
  cases l with
  | nil => rfl
  | cons c rest =>
    have hc : ¬(c = '[') := fun e => h (e ▸ List.mem_cons_self c rest)
    simp [linkMatch, hc]

lemma imageMatch_none {l : List Char} (h : '[' ∉ l) : imageMatch l = none := by
  match l with
  | [] => rfl
  | [c] => rfl
  | c1 :: c2 :: rest =>
    have hc : ¬(c1 = '!' ∧ c2 = '[') := by
      rintro ⟨-, e⟩
      exact h (e ▸ List.mem_cons_of_mem c1 (List.mem_cons_self c2 rest))
    simp [imageMatch, hc]

lemma runSub_code_id {l : List Char} (h : btick ∉ l) : runSub codeMatch l = l :=
  scanSub_congr_none codeMatch btick (fun _ hx => codeMatch_none hx) _ l h

lemma runSub_bold_id {l : List Char} (h : '*' ∉ l) : runSub boldMatch l = l :=
  scanSub_congr_none boldMatch '*' (fun _ hx => boldMatch_none hx) _ l h

lemma runSub_ital_id {l : List Char} (h : '*' ∉ l) : runSub italMatch l = l :=
  scanSub_congr_none italMatch '*' (fun _ hx => italMatch_none hx) _ l h

lemma runSub_strike_id {l : List Char} (h : '~' ∉ l) : runSub strikeMatch l = l :=
  scanSub_congr_none strikeMatch '~' (fun _ hx => strikeMatch_none hx) _ l h

lemma runSub_link_id {l : List Char} (h : '[' ∉ l) : runSub linkMatch l = l :=
  scanSub_congr_none linkMatch '[' (fun _ hx => linkMatch_none hx) _ l h

lemma runSub_image_id {l : List Char} (h : '[' ∉ l) : runSub imageMatch l = l :=
  scanSub_congr_none imageMatch '[' (fun _ hx => imageMatch_none hx) _ l h

/-- Text containing none of the inline-marker characters passes through all
six substitution passes unchanged. -/
lemma formatInline_id {l : List Char} (h1 : btick ∉ l) (h2 : '*' ∉ l)
    (h3 : '~' ∉ l) (h4 : '[' ∉ l) : formatInline l = l := by
  unfold formatInline
  rw [runSub_code_id h1, runSub_bold_id h2, runSub_ital_id h2,
    runSub_strike_id h3, runSub_link_id h4, runSub_image_id h4]

/-! ## Claim C7 -/

lemma startsWithL_append_of {q : List Char} : ∀ {p : List Char} (r : List Char),
    startsWithL p q = true → startsWithL (p ++ r) q = true := by
  induction q with
  | nil =>
    intro p r _
    cases hpr : p ++ r <;> rfl
  | cons a qs ih =>
    intro p r h
    cases p with
    | nil => simp [startsWithL] at h
    | cons c cs =>
      simp only [startsWithL, Bool.and_eq_true, decide_eq_true_eq] at h
      simp only [List.cons_append, startsWithL, Bool.and_eq_true, decide_eq_true_eq]
      exact ⟨h.1, ih r h.2⟩

lemma linkMatch_cons_other {c : Char} {rest : List Char} (h : ¬(c = '[')) :
    linkMatch (c :: rest) = none := by
  simp [linkMatch, h]

lemma linkMatch_hit (alt url : List Char) (ha : alt ≠ []) (hu : url ≠ [])
    (hA : ∀ c ∈ alt, ¬(c = ']')) (hU : ∀ c ∈ url, ¬(c = ')')) :
    linkMatch ('[' :: (alt ++ ']' :: '(' :: (url ++ [')'])))
      = some (linkRepl alt url, []) := by
  have tw1 : (alt ++ ']' :: '(' :: (url ++ [')'])).takeWhile
      (fun x => ¬(x = ']')) = alt :=
    takeWhile_app _ _ (fun c hc => by simpa using hA c hc) (by decide)
  have dw1 : (alt ++ ']' :: '(' :: (url ++ [')'])).dropWhile
      (fun x => ¬(x = ']')) = ']' :: '(' :: (url ++ [')']) :=
    dropWhile_app _ _ (fun c hc => by simpa using hA c hc) (by decide)
  have tw2 : (url ++ [')']).takeWhile (fun x => ¬(x = ')')) = url :=
    takeWhile_app _ _ (fun c hc => by simpa using hU c hc) (by decide)
  have dw2 : (url ++ [')']).dropWhile (fun x => ¬(x = ')')) = [')'] :=
    dropWhile_app _ _ (fun c hc => by simpa using hU c hc) (by decide)
  simp only [linkMatch, tw1, dw1, tw2, dw2, List.isEmpty_eq_false.mpr ha,
    List.isEmpty_eq_false.mpr hu]
  simp

lemma linkMatch_empty_label (url : List Char) (hU : ∀ c ∈ url, ¬(c = ')')) :
    linkMatch ('[' :: ']' :: '(' :: (url ++ [')'])) = none := by
  have tw2 : (url ++ [')']).takeWhile (fun x => ¬(x = ')')) = url :=
    takeWhile_app _ _ (fun c hc => by simpa using hU c hc) (by decide)
  have dw2 : (url ++ [')']).dropWhile (fun x => ¬(x = ')')) = [')'] :=
    dropWhile_app _ _ (fun c hc => by simpa using hU c hc) (by decide)
  have tw2b : (url ++ [')']).takeWhile (fun x => !decide (x = ')')) = url :=
    takeWhile_app _ _ (fun c hc => by simpa using hU c hc) (by decide)
  have dw2b : (url ++ [')']).dropWhile (fun x => !decide (x = ')')) = [')'] :=
    dropWhile_app _ _ (fun c hc => by simpa using hU c hc) (by decide)
  simp only [linkMatch, List.takeWhile_cons, List.dropWhile_cons, tw2, dw2]
  simp [tw2b, dw2b]

lemma runSub_link_on_img (alt url : List Char) (ha : alt ≠ []) (hu : url ≠ [])
    (hA : ∀ c ∈ alt, ¬(c = ']')) (hU : ∀ c ∈ url, ¬(c = ')')) :
    runSub linkMatch ('!' :: '[' :: (alt ++ ']' :: '(' :: (url ++ [')'])))
      = '!' :: linkRepl alt url := by
  unfold runSub
  simp only [List.length_cons]
  simp only [scanSub, linkMatch_cons_other (by decide : ¬('!' = '[')),
    linkMatch_hit alt url ha hu hA hU, scanSub_nil, List.append_nil]

lemma runSub_link_on_emptyalt (url : List Char) (hU : ∀ c ∈ url, ¬(c = ')'))
    (hUl : '[' ∉ url) :
    runSub linkMatch ('!' :: '[' :: ']' :: '(' :: (url ++ [')']))
      = '!' :: '[' :: ']' :: '(' :: (url ++ [')']) := by
  have hrem : scanSub linkMatch ((url ++ [')']).length) (url ++ [')'])
      = url ++ [')'] := by
    refine scanSub_congr_none linkMatch '[' (fun _ hx => linkMatch_none hx) _ _ ?_
    simp [List.mem_append, hUl]
  unfold runSub
  simp only [List.length_cons]
  simp only [scanSub, linkMatch_cons_other (by decide : ¬('!' = '[')),
    linkMatch_empty_label url hU,
    linkMatch_cons_other (by decide : ¬(']' = '[')),
    linkMatch_cons_other (by decide : ¬('(' = '[')), hrem]

lemma runSub_image_on_emptyalt (url : List Char) (hu : url ≠ [])
    (hU : ∀ c ∈ url, ¬(c = ')')) :
    runSub imageMatch ('!' :: '[' :: ']' :: '(' :: (url ++ [')']))
      = imgRepl [] url := by
  have tw2 : (url ++ [')']).takeWhile (fun x => ¬(x = ')')) = url :=
    takeWhile_app _ _ (fun c hc => by simpa using hU c hc) (by decide)
  have dw2 : (url ++ [')']).dropWhile (fun x => ¬(x = ')')) = [')'] :=
    dropWhile_app _ _ (fun c hc => by simpa using hU c hc) (by decide)
  have tw2b : (url ++ [')']).takeWhile (fun x => !decide (x = ')')) = url :=
    takeWhile_app _ _ (fun c hc => by simpa using hU c hc) (by decide)
  have dw2b : (url ++ [')']).dropWhile (fun x => !decide (x = ')')) = [')'] :=
    dropWhile_app _ _ (fun c hc => by simpa using hU c hc) (by decide)
  have hit : imageMatch ('!' :: '[' :: ']' :: '(' :: (url ++ [')']))
      = some (imgRepl [] url, []) := by
    simp only [imageMatch, List.takeWhile_cons, List.dropWhile_cons, tw2, dw2,
      List.isEmpty_eq_false.mpr hu]
    simp [tw2b, dw2b, List.isEmpty_eq_false.mpr hu]
  unfold runSub
  simp only [List.length_cons]
  simp only [scanSub, hit, scanSub_nil, List.append_nil]

/-- Claim C7: image markdown with non-empty alt text is consumed by the
earlier link pass — the output is a literal `!` followed by the `<a>`
anchor, not an `<img>` element; only an image with empty alt text renders
as an `<img>` element. -/
theorem c7_theorem (alt url : List Char) (ha : alt ≠ []) (hu : url ≠ [])
    (hA : ∀ c ∈ alt, c ∉ ([btick, '*', '~', '[', ']', '(', ')', '!'] : List Char))
    (hU : ∀ c ∈ url, c ∉ ([btick, '*', '~', '[', ']', '(', ')', '!'] : List Char)) :
    formatInline ('!' :: '[' :: (alt ++ ']' :: '(' :: (url ++ [')'])))
      = '!' :: linkRepl alt url ∧
    startsWithL (linkRepl alt url) (("<a href=").data) = true ∧
    formatInline ('!' :: '[' :: ']' :: '(' :: (url ++ [')'])) = imgRepl [] url ∧
    startsWithL (imgRepl [] url) (("<img src=").data) = true := by
  have neA : ∀ c ∈ alt, ¬(c = ']') := fun c hc e => hA c hc (by rw [e]; decide)
  have neU : ∀ c ∈ url, ¬(c = ')') := fun c hc e => hU c hc (by rw [e]; decide)
  have hbA : btick ∉ alt := fun hm => hA btick hm (by decide)
  have hbU : btick ∉ url := fun hm => hU btick hm (by decide)
  have hsA : '*' ∉ alt := fun hm => hA '*' hm (by decide)
  have hsU : '*' ∉ url := fun hm => hU '*' hm (by decide)
  have htA : '~' ∉ alt := fun hm => hA '~' hm (by decide)
  have htU : '~' ∉ url := fun hm => hU '~' hm (by decide)
  have hlA : '[' ∉ alt := fun hm => hA '[' hm (by decide)
  have hlU : '[' ∉ url := fun hm => hU '[' hm (by decide)
  have hb1 : btick ∉ ('!' :: '[' :: (alt ++ ']' :: '(' :: (url ++ [')']))) := by
    simp [List.mem_cons, List.mem_append, hbA, hbU,
      (by decide : ¬(btick = '!')), (by decide : ¬(btick = '[')),
      (by decide : ¬(btick = ']')), (by decide : ¬(btick = '(')),
      (by decide : ¬(btick = ')'))]
  have hs1 : '*' ∉ ('!' :: '[' :: (alt ++ ']' :: '(' :: (url ++ [')']))) := by
    simp [List.mem_cons, List.mem_append, hsA, hsU]
  have ht1 : '~' ∉ ('!' :: '[' :: (alt ++ ']' :: '(' :: (url ++ [')']))) := by
    simp [List.mem_cons, List.mem_append, htA, htU]
  have himg : '[' ∉ ('!' :: linkRepl alt url) := by
    simp [List.mem_cons, linkRepl, List.mem_append, hlA, hlU,
      (by decide : '[' ∉ ("<a href=\"").data),
      (by decide : '[' ∉ ("\" style=\"color:#57606a;text-decoration:none;border-bottom:1px solid #57606a\">").data),
      (by decide : '[' ∉ ("</a>").data)]
  have hb0 : btick ∉ ('!' :: '[' :: ']' :: '(' :: (url ++ [')'])) := by
    simp [List.mem_cons, List.mem_append, hbU,
      (by decide : ¬(btick = '!')), (by decide : ¬(btick = '[')),
      (by decide : ¬(btick = ']')), (by decide : ¬(btick = '(')),
      (by decide : ¬(btick = ')'))]
  have hs0 : '*' ∉ ('!' :: '[' :: ']' :: '(' :: (url ++ [')'])) := by
    simp [List.mem_cons, List.mem_append, hsU]
  have ht0 : '~' ∉ ('!' :: '[' :: ']' :: '(' :: (url ++ [')'])) := by
    simp [List.mem_cons, List.mem_append, htU]
  refine ⟨?_, ?_, ?_, ?_⟩
  · unfold formatInline
    rw [runSub_code_id hb1, runSub_bold_id hs1, runSub_ital_id hs1,
      runSub_strike_id ht1, runSub_link_on_img alt url ha hu neA neU,
      runSub_image_id himg]
  · unfold linkRepl
    exact startsWithL_append_of _ (startsWithL_append_of _
      (startsWithL_append_of _ (startsWithL_append_of _ (by decide))))
  · unfold formatInline
    rw [runSub_code_id hb0, runSub_bold_id hs0, runSub_ital_id hs0,
      runSub_strike_id ht0, runSub_link_on_emptyalt url neU hlU,
      runSub_image_on_emptyalt url hu neU]
  · unfold imgRepl
    exact startsWithL_append_of _ (startsWithL_append_of _
      (startsWithL_append_of _ (startsWithL_append_of _ (by decide))))

/-- Witness for `c7_theorem`: `![pic](u)` and `![](u)`. -/
theorem c7_witness :
    formatInline ('!' :: '[' :: (("pic").data ++ ']' :: '(' :: (("u").data ++ [')'])))
      = '!' :: linkRepl ("pic").data ("u").data ∧
    startsWithL (linkRepl ("pic").data ("u").data) (("<a href=").data) = true ∧
    formatInline ('!' :: '[' :: ']' :: '(' :: (("u").data ++ [')'])) = imgRepl [] ("u").data ∧
    startsWithL (imgRepl [] ("u").data) (("<img src=").data) = true :=
  c7_theorem ("pic").data ("u").data (by decide) (by decide) (by decide) (by decide)

/-! ## Claim C8 -/

/-- Claim C8: paragraph, list-item, and blockquote content is placed into
the fragment inline-formatted but not HTML-escaped — text free of inline
markers (which may still contain raw `<` and `&`) appears verbatim — while
heading text and code content pass through `escape` (after which no raw `<`
remains), and heading text is never inline-formatted. -/
theorem c8_theorem (t : List Char) (h1 : btick ∉ t) (h2 : '*' ∉ t)
    (h3 : '~' ∉ t) (h4 : '[' ∉ t) :
    renderBlock (Block.para t)
      = ("<p style=\"margin:0 0 16px;line-height:1.8;font-size:16px;color:#333\">").data
        ++ t ++ ("</p>").data ∧
    renderBlock (Block.ulist [t])
      = ("<ul style=\"padding-left:24px;margin:16px 0\">").data
        ++ (("<li style=\"margin:8px 0;line-height:1.8\">").data ++ t ++ ("</li>").data)
        ++ ("</ul>").data ∧
    renderBlock (Block.quote [t])
      = ("<blockquote style=\"border-left:4px solid #dfe2e5;padding-left:16px;margin:16px 0;color:#666\">").data
        ++ t ++ ("</blockquote>").data ∧
    (∀ u : List Char, renderBlock (Block.header 2 u)
      = ("<h").data ++ (Nat.repr 2).data ++ (" style=\"font-size:").data
        ++ fontSize 2
        ++ (";margin:24px 0 16px;font-weight:600;color:#1f2328\">").data
        ++ escapeL u
        ++ ("</h").data ++ (Nat.repr 2).data ++ (">").data) ∧
    (∀ cs : List (List Char), renderBlock (Block.code cs)
      = ("<pre style=\"background:#f6f8fa;padding:16px;border-radius:8px;overflow-x:auto;margin:16px 0\"><code style=\"font-family:monospace;font-size:14px;line-height:1.6;color:#24292e\">").data
        ++ escapeL (joinSep ['\n'] cs) ++ ("</code></pre>").data) ∧
    (∀ u : List Char, '<' ∉ escapeL u) := by
  have hfi := formatInline_id h1 h2 h3 h4
  refine ⟨?_, ?_, ?_, fun _ => rfl, fun _ => rfl, escapeL_not_lt⟩
  · simp [renderBlock, renderParagraph, hfi]
  · simp [renderBlock, renderList, joinSep, hfi]
  · simp [renderBlock, renderBlockquote, joinSep, hfi]

/-- Witness for `c8_theorem` on text holding a raw `<` and `&`. -/
theorem c8_witness :
    renderBlock (Block.para ("a<b&c").data)
      = ("<p style=\"margin:0 0 16px;line-height:1.8;font-size:16px;color:#333\">").data
        ++ ("a<b&c").data ++ ("</p>").data ∧
    renderBlock (Block.ulist [("a<b&c").data])
      = ("<ul style=\"padding-left:24px;margin:16px 0\">").data
        ++ (("<li style=\"margin:8px 0;line-height:1.8\">").data ++ ("a<b&c").data
            ++ ("</li>").data)
        ++ ("</ul>").data ∧
    renderBlock (Block.quote [("a<b&c").data])
      = ("<blockquote style=\"border-left:4px solid #dfe2e5;padding-left:16px;margin:16px 0;color:#666\">").data
        ++ ("a<b&c").data ++ ("</blockquote>").data ∧
    (∀ u : List Char, renderBlock (Block.header 2 u)
      = ("<h").data ++ (Nat.repr 2).data ++ (" style=\"font-size:").data
        ++ fontSize 2
        ++ (";margin:24px 0 16px;font-weight:600;color:#1f2328\">").data
        ++ escapeL u
        ++ ("</h").data ++ (Nat.repr 2).data ++ (">").data) ∧
    (∀ cs : List (List Char), renderBlock (Block.code cs)
      = ("<pre style=\"background:#f6f8fa;padding:16px;border-radius:8px;overflow-x:auto;margin:16px 0\"><code style=\"font-family:monospace;font-size:14px;line-height:1.6;color:#24292e\">").data
        ++ escapeL (joinSep ['\n'] cs) ++ ("</code></pre>").data) ∧
    (∀ u : List Char, '<' ∉ escapeL u) :=
  c8_theorem ("a<b&c").data (by decide) (by decide) (by decide) (by decide)

end MD
